import Mathlib

/-!
Verification development for the narrative/simulation engine of a
wrestling-promotion Discord bot: the match simulator
(src/director/match-engine.js), the storyline director
(src/director/storyline-engine.js), the championship ledger
(src/director/championships.js) and the PPV booker
(src/director/ppv-engine.js).

JavaScript numbers are modelled as rationals (ℚ), JS objects keyed by
character identifier as total functions `String → ℚ` (the code always
reads them with a `|| 0` default) or as association lists, and every
call to `Math.random()` is replaced by an explicit draw parameter
constrained to the interval the code draws from.
-/

/-- Association-list lookup, the model of a JavaScript object property read. -/
def lookupStr {α : Type} (k : String) : List (String × α) → Option α
  | [] => none
  | (k2, v) :: rest => if k2 = k then some v else lookupStr k rest

/-- Association-list update of an existing key, the model of a JavaScript
object property write. -/
def updateStr {α : Type} (k : String) (v : α) : List (String × α) → List (String × α)
  | [] => []
  | (k2, v2) :: rest => if k2 = k then (k2, v) :: rest else (k2, v2) :: updateStr k v rest

/-- One entry of the Character Registry (src/director/characters.js): the
behavioural parameters the engine reads at runtime. -/
structure Character where
  name : String
  alignment : String
  responseChance : ℚ
  feudResponseChance : ℚ
deriving DecidableEq

/-- The CHARACTERS catalog of src/director/characters.js. -/
def CHARACTERS : List (String × Character) :=
  [ ("john-cena",
      { name := "John Cena", alignment := "face",
        responseChance := 7/10, feudResponseChance := 1 }),
    ("the-rock",
      { name := "The Rock", alignment := "tweener",
        responseChance := 7/10, feudResponseChance := 1 }),
    ("stone-cold",
      { name := "Stone Cold Steve Austin", alignment := "tweener",
        responseChance := 1/2, feudResponseChance := 9/10 }) ]

/-- getCharacter of src/director/characters.js. -/
def getCharacter (id : String) : Option Character :=
  lookupStr id CHARACTERS

/-- getFeudPartners of src/director/characters.js: the static rival lists. -/
def getFeudPartners (characterId : String) : List String :=
  (lookupStr characterId
    [ ("john-cena", ["the-rock"]),
      ("the-rock", ["john-cena"]),
      ("stone-cold", ["the-rock", "john-cena"]) ]).getD []

/-- One entry of the MATCH_TYPES catalog of src/director/match-engine.js.
`participantsMin` is the lower end of the configured participant count
(the catalog's `participants` field, or its first element for ranges). -/
structure MatchType where
  name : String
  participantsMin : ℕ
  winConditions : List String
  roundsMin : ℕ
  roundsMax : ℕ
  weaponsAllowed : Bool := false
deriving DecidableEq

/-- The MATCH_TYPES catalog of src/director/match-engine.js. -/
def MATCH_TYPES : List (String × MatchType) :=
  [ ("singles",
      { name := "Singles Match", participantsMin := 2,
        winConditions := ["pinfall", "submission", "count-out", "dq"],
        roundsMin := 4, roundsMax := 7 }),
    ("no-dq",
      { name := "No Disqualification Match", participantsMin := 2,
        winConditions := ["pinfall", "submission"],
        roundsMin := 5, roundsMax := 8, weaponsAllowed := true }),
    ("steel-cage",
      { name := "Steel Cage Match", participantsMin := 2,
        winConditions := ["pinfall", "submission", "escape"],
        roundsMin := 5, roundsMax := 9 }),
    ("hell-in-a-cell",
      { name := "Hell in a Cell", participantsMin := 2,
        winConditions := ["pinfall", "submission"],
        roundsMin := 6, roundsMax := 10, weaponsAllowed := true }),
    ("ladder",
      { name := "Ladder Match", participantsMin := 2,
        winConditions := ["retrieve"],
        roundsMin := 5, roundsMax := 9 }),
    ("triple-threat",
      { name := "Triple Threat Match", participantsMin := 3,
        winConditions := ["pinfall", "submission"],
        roundsMin := 5, roundsMax := 8 }),
    ("fatal-four-way",
      { name := "Fatal Four-Way", participantsMin := 4,
        winConditions := ["pinfall", "submission"],
        roundsMin := 5, roundsMax := 9 }),
    ("tag-team",
      { name := "Tag Team Match", participantsMin := 4,
        winConditions := ["pinfall", "submission", "count-out", "dq"],
        roundsMin := 4, roundsMax := 7 }),
    ("royal-rumble",
      { name := "Royal Rumble", participantsMin := 3,
        winConditions := ["last-standing"],
        roundsMin := 8, roundsMax := 15 }) ]

/-- The live match object of MatchEngine (src/director/match-engine.js).
Momentum and damage are the per-participant maps; reads in the source use
an `|| 0` default, so both are total functions defaulting to 0. -/
structure MatchState where
  matchType : String
  participants : List String
  totalRounds : ℕ
  currentRound : ℕ
  momentum : String → ℚ
  damage : String → ℚ
  eliminated : List String
  winner : Option String
  winMethod : Option String

/-- The random draws consumed by one simulateRound call: the two combatants
picked from the shuffled alive list, the beat name, the momentum swing
(`Math.floor(Math.random()*3)+1`), the raw damage roll, the two finish
jitters (`Math.random()*5`), and the win-method index. -/
structure RoundDraw where
  actor : String
  target : String
  beat : String
  swing : ℚ
  dmg : ℚ
  jitterA : ℚ
  jitterT : ℚ
  methodIdx : ℕ

/-- The constraints the engine's random number generator guarantees for any
round, in any phase: combatants come from the participant set, the swing is
an integer in [1,3] (we only need 1 ≤ swing ≤ 3), the damage roll is
non-negative and below the largest phase range [10,30), and each finish
jitter lies in [0,5). -/
def DrawOk (ps : List String) (d : RoundDraw) : Prop :=
  d.actor ∈ ps ∧ d.target ∈ ps ∧ 1 ≤ d.swing ∧ d.swing ≤ 3 ∧
  0 ≤ d.dmg ∧ d.dmg < 30 ∧ 0 ≤ d.jitterA ∧ d.jitterA < 5 ∧
  0 ≤ d.jitterT ∧ d.jitterT < 5

instance (ps : List String) (d : RoundDraw) : Decidable (DrawOk ps d) := by
  unfold DrawOk; infer_instance

/-- MatchEngine._getPhase: the phase bucket from the round-count fraction. -/
def getPhase (s : MatchState) : String :=
  let pct : ℚ := (s.currentRound : ℚ) / (s.totalRounds : ℚ)
  if pct ≤ 1/4 then "early"
  else if pct ≤ 3/5 then "mid"
  else if pct < 1 then "late"
  else "finish"

/-- The three reversal beats of MatchEngine._resolveBeat. -/
def isReversalBeat (beat : String) : Bool :=
  beat = "counter" || beat = "finisher-counter" || beat = "comeback"

/-- The momentum updates of the common part of _resolveBeat: actor gains the
swing (capped at 10), target loses 1 (floored at -10). -/
def beatMomentum (mom : String → ℚ) (d : RoundDraw) : String → ℚ :=
  Function.update (Function.update mom d.actor (min 10 (mom d.actor + d.swing)))
    d.target
    (max (-10) (Function.update mom d.actor (min 10 (mom d.actor + d.swing)) d.target - 1))

/-- The damage update of the common part of _resolveBeat: the target
accumulates the roll, capped at 100. -/
def beatDamage (dmg : String → ℚ) (d : RoundDraw) : String → ℚ :=
  Function.update dmg d.target (min 100 (dmg d.target + d.dmg))

/-- The reversal momentum updates of _resolveBeat: actor loses twice the
swing (floored at -10), target gains twice the swing (capped at 10). -/
def revMomentum (mom : String → ℚ) (d : RoundDraw) : String → ℚ :=
  Function.update (Function.update mom d.actor (max (-10) (mom d.actor - 2 * d.swing)))
    d.target
    (min 10 (Function.update mom d.actor (max (-10) (mom d.actor - 2 * d.swing)) d.target
      + 2 * d.swing))

/-- The reversal damage update of _resolveBeat: the actor absorbs half the
roll, capped at 100. -/
def revDamage (dmg : String → ℚ) (d : RoundDraw) : String → ℚ :=
  Function.update dmg d.actor (min 100 (dmg d.actor + d.dmg * (1/2)))

/-- MatchEngine._resolveBeat: the mechanical effect of one beat — the
common momentum/damage updates, then the reversal updates on the three
reversal beats. -/
def resolveBeat (s : MatchState) (d : RoundDraw) : MatchState :=
  if isReversalBeat d.beat then
    { s with momentum := revMomentum (beatMomentum s.momentum d) d,
             damage := revDamage (beatDamage s.damage d) d }
  else
    { s with momentum := beatMomentum s.momentum d,
             damage := beatDamage s.damage d }

/-- MatchEngine._resolveFinish: score each combatant by momentum plus a
tenth of the opponent's accumulated damage, add the jitters, and the
higher final score wins with ties broken in the actor's favour; the win
method is drawn from the type's legal win-condition list. -/
def resolveFinish (mt : MatchType) (s : MatchState) (d : RoundDraw) : MatchState :=
  { s with
    winner := some
      (if s.momentum d.target + s.damage d.actor / 10 + d.jitterT ≤
          s.momentum d.actor + s.damage d.target / 10 + d.jitterA
       then d.actor else d.target),
    winMethod := some (mt.winConditions.getD d.methodIdx "pinfall") }

/-- The surviving participants of a match: everyone not eliminated. -/
def aliveList (s : MatchState) : List String :=
  s.participants.filter (fun p => !(s.eliminated.contains p))

/-- The forced-finish score of a participant: the summed accumulated damage
sitting on every other participant (`Object.entries(match.damage)` iterates
the damage keys, i.e. the distinct participants). -/
def inflictedScore (s : MatchState) (p : String) : ℚ :=
  (((s.participants.dedup).filter (fun k => k ≠ p)).map s.damage).sum

/-- The running-maximum loop of MatchEngine._forceFinish: keep the first
element whose score strictly exceeds the best seen so far. -/
def pickBestGo (score : String → ℚ) : String → ℚ → List String → String
  | best, _, [] => best
  | best, bestScore, p :: rest =>
    if bestScore < score p then pickBestGo score p (score p) rest
    else pickBestGo score best bestScore rest

/-- The full argmax of _forceFinish, starting from the head of the list. -/
def pickBest (score : String → ℚ) : List String → Option String
  | [] => none
  | a :: rest => some (pickBestGo score a (score a) rest)

/-- MatchEngine._forceFinish: award the win to the surviving participant
with the highest forced-finish score and fix the win method to pinfall. -/
def forceFinish (s : MatchState) : MatchState :=
  { s with
    winner := pickBest (inflictedScore s) (aliveList s),
    winMethod := some "pinfall" }

/-- MatchEngine.simulateRound, one call: a no-op when the match already has
a winner; otherwise increment the round counter, resolve the drawn beat,
and resolve the finish when the phase is `finish` (or `late` with the round
counter at the total). -/
def simulateRoundStep (mt : MatchType) (s : MatchState) (d : RoundDraw) : MatchState :=
  if s.winner.isSome then s
  else if getPhase { s with currentRound := s.currentRound + 1 } = "finish" ∨
      (getPhase { s with currentRound := s.currentRound + 1 } = "late" ∧
        s.totalRounds ≤ s.currentRound + 1) then
    resolveFinish mt (resolveBeat { s with currentRound := s.currentRound + 1 } d) d
  else resolveBeat { s with currentRound := s.currentRound + 1 } d

/-- The simulateFullMatch loop: simulate rounds while there is no winner,
counting the simulated rounds, and force a finish as soon as more than 20
rounds have been simulated. The fuel argument only bounds the recursion;
21 units are enough to reach the safety valve from round 0. -/
def runRounds (mt : MatchType) (draws : ℕ → RoundDraw) :
    ℕ → MatchState → ℕ → MatchState × ℕ
  | 0, s, n => (s, n)
  | fuel + 1, s, n =>
    if s.winner.isSome then (s, n)
    else if 20 < n + 1 then (forceFinish (simulateRoundStep mt s (draws n)), n + 1)
    else runRounds mt draws fuel (simulateRoundStep mt s (draws n)) (n + 1)

/-- MatchEngine.createMatch: reject an unknown match type, then reject the
first unknown participant, otherwise initialise the live match with zero
momentum and damage for everyone. `totalRounds` stands for the uniform
draw from the type's configured inclusive round range. -/
def createMatch (participants : List String) (matchType : String) (totalRounds : ℕ) :
    Except String MatchState :=
  match lookupStr matchType MATCH_TYPES with
  | none => .error ("Unknown match type: " ++ matchType)
  | some _ =>
    match participants.find? (fun p => (getCharacter p).isNone) with
    | some p => .error ("Unknown character: " ++ p)
    | none => .ok
        { matchType := matchType, participants := participants,
          totalRounds := totalRounds, currentRound := 0,
          momentum := fun _ => 0, damage := fun _ => 0,
          eliminated := [], winner := none, winMethod := none }

/-- MatchEngine.simulateFullMatch: create the match and run the round loop
to completion, returning the final match state and the number of simulated
rounds. -/
def simulateFullMatch (participants : List String) (matchType : String)
    (totalRounds : ℕ) (draws : ℕ → RoundDraw) : Except String (MatchState × ℕ) :=
  match lookupStr matchType MATCH_TYPES, createMatch participants matchType totalRounds with
  | _, .error e => .error e
  | some mt, .ok s => .ok (runRounds mt draws 21 s 0)
  | none, .ok s => .ok (s, 0)

/-- Whether an Except value carries a success, the model of a result
without an `error` field. -/
def isOkE {ε α : Type} : Except ε α → Bool
  | .ok _ => true
  | .error _ => false

/-! ## Championship Ledger (src/director/championships.js) -/

/-- One closed reign in a title's history list. Entries pushed by
awardTitle carry no vacated flag (modelled as `false`); vacateTitle pushes
`vacated := true`. -/
structure Reign where
  holder : String
  wonAt : Option ℕ
  lostAt : ℕ
  defenses : ℕ
  vacated : Bool
deriving DecidableEq

/-- The per-title record of ChampionshipTracker: holder, won-at timestamp,
consecutive defense count and the bounded history of prior reigns. -/
structure Title where
  holder : Option String
  wonAt : Option ℕ
  defenses : ℕ
  history : List Reign
deriving DecidableEq

/-- The ledger: one record per title identifier of the CHAMPIONSHIPS
catalog. -/
abbrev Ledger : Type := List (String × Title)

/-- Display names of the CHAMPIONSHIPS catalog. -/
def championshipDisplayName (id : String) : String :=
  (lookupStr id
    [ ("wwe-championship", "WWE Championship"),
      ("intercontinental", "Intercontinental Championship"),
      ("tag-team", "Tag Team Championship"),
      ("hardcore", "Hardcore Championship") ]).getD ""

/-- The ChampionshipTracker constructor: every catalog title starts
vacant with no history. -/
def initialLedger : Ledger :=
  [ ("wwe-championship", { holder := none, wonAt := none, defenses := 0, history := [] }),
    ("intercontinental", { holder := none, wonAt := none, defenses := 0, history := [] }),
    ("tag-team", { holder := none, wonAt := none, defenses := 0, history := [] }),
    ("hardcore", { holder := none, wonAt := none, defenses := 0, history := [] }) ]

/-- The structured change record returned by awardTitle. -/
structure AwardResult where
  titleId : String
  titleName : String
  newChampion : String
  previousChampion : Option String
  method : String
deriving DecidableEq

/-- The history push of awardTitle: when a holder exists, its closed reign
(holder, won-at, lost-at = now, defenses) is appended; otherwise history
is untouched. -/
def awardPushed (t : Title) (now : ℕ) : List Reign :=
  match t.holder with
  | some prev =>
    t.history ++ [{ holder := prev, wonAt := t.wonAt, lostAt := now,
                    defenses := t.defenses, vacated := false }]
  | none => t.history

/-- The history bound of awardTitle: `slice(-20)` once the list exceeds 20
entries, i.e. truncation from the front. -/
def awardTrunc (hist1 : List Reign) : List Reign :=
  if 20 < hist1.length then hist1.drop (hist1.length - 20) else hist1

/-- ChampionshipTracker.awardTitle: null for an unknown title; otherwise
close the previous holder's reign into history (when one exists), install
the new holder with defenses reset to 0 and won-at = now, and truncate the
history from the front once it exceeds 20 entries. The mutation of
`this.titles` is modelled by returning the updated ledger. -/
def awardTitle (led : Ledger) (titleId characterId method : String) (now : ℕ) :
    Option AwardResult × Ledger :=
  match lookupStr titleId led with
  | none => (none, led)
  | some t =>
    let t2 : Title := { holder := some characterId, wonAt := some now,
                        defenses := 0, history := awardTrunc (awardPushed t now) }
    (some { titleId := titleId, titleName := championshipDisplayName titleId,
            newChampion := characterId, previousChampion := t.holder,
            method := method },
     updateStr titleId t2 led)

/-- ChampionshipTracker.recordDefense: increment the defense counter,
a no-op when the title is unknown or vacant. -/
def recordDefense (led : Ledger) (titleId : String) : Ledger :=
  match lookupStr titleId led with
  | none => led
  | some t =>
    match t.holder with
    | none => led
    | some _ => updateStr titleId { t with defenses := t.defenses + 1 } led

/-- ChampionshipTracker.vacateTitle: close the current reign into history
with the vacated flag, then clear the holder. -/
def vacateTitle (led : Ledger) (titleId : String) (now : ℕ) : Ledger :=
  match lookupStr titleId led with
  | none => led
  | some t =>
    let hist1 :=
      match t.holder with
      | some prev =>
        t.history ++ [{ holder := prev, wonAt := t.wonAt, lostAt := now,
                        defenses := t.defenses, vacated := true }]
      | none => t.history
    updateStr titleId { holder := none, wonAt := none, defenses := 0, history := hist1 } led

/-! ## Storyline Director (src/director/storyline-engine.js) -/

/-- One tracked feud: the unordered pair of character identifiers, the
numeric intensity, the advisory phase string and the creation timestamp. -/
structure Feud where
  between : List String
  intensity : ℚ
  phase : String
  startedAt : ℕ
deriving DecidableEq

/-- One compact storyline-history record ({beat, characters, intensity};
surprise entries carry no intensity). -/
structure HistEntry where
  beat : String
  characters : List String
  intensity : Option ℚ
deriving DecidableEq

/-- The mutable state of StorylineEngine. -/
structure DirectorState where
  feuds : List Feud
  storylineHistory : List HistEntry
  beatsSinceLastSurprise : ℕ
  activeCharacters : List String
  waitingInTheWings : List String
  messageCount : ℕ
  alignmentOverrides : List (String × String)
  heatMap : List (String × List ℕ)
deriving DecidableEq

/-- The StorylineEngine constructor defaults (timestamps modelled as 0). -/
def freshDirector : DirectorState :=
  { feuds :=
      [ { between := ["john-cena", "the-rock"], intensity := 7,
          phase := "building", startedAt := 0 },
        { between := ["stone-cold", "triple-h"], intensity := 6,
          phase := "building", startedAt := 0 },
        { between := ["undertaker", "mankind"], intensity := 5,
          phase := "simmering", startedAt := 0 } ],
    storylineHistory := [],
    beatsSinceLastSurprise := 0,
    activeCharacters := ["john-cena", "the-rock"],
    waitingInTheWings := ["stone-cold", "undertaker", "macho-man", "triple-h", "mankind"],
    messageCount := 0,
    alignmentOverrides := [],
    heatMap := [] }

/-- The last `n` elements of a list, the model of `Array.slice(-n)`. -/
def lastN {α : Type} (n : ℕ) (l : List α) : List α :=
  l.drop (l.length - n)

/-- The snapshot shape written by StorylineEngine.saveState (the savedAt
wall-clock string is orchestration-only and omitted). -/
structure Snapshot where
  feuds : List Feud
  activeCharacters : List String
  waitingInTheWings : List String
  messageCount : ℕ
  beatsSinceLastSurprise : ℕ
  alignmentOverrides : List (String × String)
  heatMap : List (String × List ℕ)
  storylineHistory : List HistEntry
deriving DecidableEq

/-- StorylineEngine.saveState: serialise the full mutable state, with the
in-memory history bounded to the last 100 beats. -/
def saveState (d : DirectorState) : Snapshot :=
  { feuds := d.feuds,
    activeCharacters := d.activeCharacters,
    waitingInTheWings := d.waitingInTheWings,
    messageCount := d.messageCount,
    beatsSinceLastSurprise := d.beatsSinceLastSurprise,
    alignmentOverrides := d.alignmentOverrides,
    heatMap := d.heatMap,
    storylineHistory := lastN 100 d.storylineHistory }

/-- StorylineEngine.loadState on a parsed snapshot: each field is adopted
when its saved value is truthy in JavaScript — arrays and objects always
are, the numeric counters only when non-zero — and the history is bounded
to the last 100 entries. -/
def loadState (d : DirectorState) (saved : Snapshot) : DirectorState :=
  { feuds := saved.feuds,
    activeCharacters := saved.activeCharacters,
    waitingInTheWings := saved.waitingInTheWings,
    messageCount := if saved.messageCount = 0 then d.messageCount else saved.messageCount,
    beatsSinceLastSurprise :=
      if saved.beatsSinceLastSurprise = 0 then d.beatsSinceLastSurprise
      else saved.beatsSinceLastSurprise,
    alignmentOverrides := saved.alignmentOverrides,
    heatMap := saved.heatMap,
    storylineHistory := lastN 100 saved.storylineHistory }

/-- The view returned by StorylineEngine.getState: the heat map is
collapsed to per-character counts and the history to the last 20 beats. -/
structure DirectorView where
  feuds : List Feud
  activeCharacters : List String
  waitingInTheWings : List String
  messageCount : ℕ
  beatsSinceLastSurprise : ℕ
  heatCounts : List (String × ℕ)
  recentHistory : List HistEntry
deriving DecidableEq

/-- StorylineEngine.getState. -/
def getState (d : DirectorState) : DirectorView :=
  { feuds := d.feuds,
    activeCharacters := d.activeCharacters,
    waitingInTheWings := d.waitingInTheWings,
    messageCount := d.messageCount,
    beatsSinceLastSurprise := d.beatsSinceLastSurprise,
    heatCounts := d.heatMap.map (fun kv => (kv.1, kv.2.length)),
    recentHistory := lastN 20 d.storylineHistory }

/-- StorylineEngine.getHeat: the number of reaction timestamps for the
character within the trailing 30-minute window (milliseconds). -/
def getHeat (heatMap : List (String × List ℕ)) (now : ℕ) (charId : String) : ℕ :=
  (((lookupStr charId heatMap).getD []).filter
    (fun t => now - 30 * 60 * 1000 < t)).length

/-- Whether the character-list token sequence `pat` occurs inside `s`, the
model of JavaScript `String.includes`. -/
def listStartsWith : List Char → List Char → Bool
  | _, [] => true
  | [], _ :: _ => false
  | a :: as, b :: bs => a == b && listStartsWith as bs

/-- Substring occurrence on character lists. -/
def listContainsSeq : List Char → List Char → Bool
  | [], pat => pat.isEmpty
  | a :: rest, pat => listStartsWith (a :: rest) pat || listContainsSeq rest pat

/-- JavaScript `message.includes(part)` on lowered strings. -/
def strContainsStr (s pat : String) : Bool :=
  listContainsSeq s.toList pat.toList

/-- The mention test of decideResponders: some token of the character's
lowercased name occurs in the lowercased message. -/
def nameMentioned (name message : String) : Bool :=
  (name.toLower.splitOn " ").any (fun part => strContainsStr message.toLower part)

/-- The feud-relatedness test of decideResponders: the author exists and is
on the character's rival list. -/
def isRivalOf (charId : String) (author : Option String) : Bool :=
  match author with
  | some a => (getFeudPartners charId).contains a
  | none => false

/-- The per-character response probability computed inside the
decideResponders loop of StorylineEngine: feud base when the author is a
rival, +0.3 capped at 1 when mentioned, ×0.7 when heat exceeds 5 and
additionally ×0.5 when heat exceeds 10; `none` when the character is not
in the registry (the loop skips it). -/
def charChance (charId : String) (author : Option String) (message : String)
    (heat : ℕ) : Option ℚ :=
  (getCharacter charId).map (fun char =>
    let chance := char.responseChance
    let chance := if isRivalOf charId author then char.feudResponseChance else chance
    let chance := if nameMentioned char.name message then min 1 (chance + 3/10) else chance
    let chance := if 5 < heat then chance * (7/10) else chance
    let chance := if 10 < heat then chance * (1/2) else chance
    chance)

/-- The surprise-entrance probability of shouldTriggerSurprise for a given
beats-since-last-surprise count. -/
def surpriseChance (beats : ℕ) : ℚ :=
  min (35/100) (((beats : ℚ) - 8) * (25/1000))

/-- StorylineEngine.shouldTriggerSurprise: false with an empty wings list
or fewer than 8 beats since the last surprise, otherwise a draw `r`
against the ramped probability. -/
def shouldTriggerSurprise (wings : List String) (beats : ℕ) (r : ℚ) : Bool :=
  if wings.isEmpty then false
  else if beats < 8 then false
  else decide (r < surpriseChance beats)

/-! ## PPV Booker (src/director/ppv-engine.js) -/

/-- One entry of a PPV match card. -/
structure CardEntry where
  order : ℕ
  participants : List String
  matchType : String
  forTitle : Option String
  isMainEvent : Bool
deriving DecidableEq

/-- The intensity-threshold escalation of autoBookCard. -/
def bookedMatchType (intensity : ℚ) : String :=
  if 8 ≤ intensity then "hell-in-a-cell"
  else if 6 ≤ intensity then "no-dq"
  else "singles"

/-- The title-attachment scan of autoBookCard: the first title of the
championship state whose holder is one of the two combatants. -/
def findTitleFor (champState : List (String × Option String)) (c1 c2 : String) :
    Option String :=
  (champState.find? (fun kv => kv.2 == some c1 || kv.2 == some c2)).map Prod.fst

/-- Descending insertion by intensity, the model of
`sort((a, b) => b.intensity - a.intensity)`. -/
def insertFeudDesc (f : Feud) : List Feud → List Feud
  | [] => [f]
  | g :: gs => if g.intensity ≤ f.intensity then f :: g :: gs else g :: insertFeudDesc f gs

/-- Sort feuds by descending intensity. -/
def sortFeudsDesc : List Feud → List Feud
  | [] => []
  | f :: fs => insertFeudDesc f (sortFeudsDesc fs)

/-- The feud-booking loop of autoBookCard: greedily book each feud pair
(skipping already-booked or unknown characters) with the
intensity-escalated match type, marking the first card entry main-event,
and stop once five feud matches are booked. `reg` is the
character-registry membership test (see `registryNote`). -/
def feudLoop (reg : String → Bool) (champState : List (String × Option String)) :
    List Feud → List String → List CardEntry → List String × List CardEntry
  | [], booked, card => (booked, card)
  | f :: rest, booked, card =>
    match f.between with
    | c1 :: c2 :: _ =>
      if booked.contains c1 || booked.contains c2 then
        feudLoop reg champState rest booked card
      else if !(reg c1) || !(reg c2) then
        feudLoop reg champState rest booked card
      else
        let entry : CardEntry :=
          { order := card.length + 1, participants := [c1, c2],
            matchType := bookedMatchType f.intensity,
            forTitle := findTitleFor champState c1 c2,
            isMainEvent := card.isEmpty }
        let card2 := card ++ [entry]
        let booked2 := booked ++ [c1, c2]
        if 5 ≤ card2.length then (booked2, card2)
        else feudLoop reg champState rest booked2 card2
    | _ => feudLoop reg champState rest booked card

/-- The filler loop of autoBookCard: pair off still-unbooked active
characters in order as plain singles matches until the card holds six
entries or fewer than two characters remain. -/
def fillLoop : List String → List CardEntry → List CardEntry
  | c1 :: c2 :: rest, card =>
    if card.length < 6 then
      fillLoop rest (card ++
        [{ order := card.length + 1, participants := [c1, c2],
           matchType := "singles", forTitle := none, isMainEvent := false }])
    else card
  | _, card => card

/-- Modelled from the spec: the Character Registry membership test used by
PPVEngine.autoBookCard. src/director/characters.js lists only three
personas, but this repository's own tests (test-match-engine.js books
triple-h) and the Storyline Director's default roster (undertaker,
macho-man, triple-h, mankind) refer to registry characters absent from
that file, so the registry catalog is wider than the copy under src; per
the spec it is a static read-only catalog of personas, modelled here as a
membership predicate over character identifiers. -/
def registryNote : Prop := True

/-- PPVEngine.autoBookCard: sort feuds by descending intensity, book them
greedily through `feudLoop`, then fill the remaining slots from the
unbooked active characters. -/
def autoBookCard (reg : String → Bool) (feuds : List Feud) (activeChars : List String)
    (champState : List (String × Option String)) : List CardEntry :=
  let res := feudLoop reg champState (sortFeudsDesc feuds) [] []
  fillLoop (activeChars.filter (fun c => !(res.1.contains c) && reg c)) res.2

/-! ## Theorems -/

/-- C9: Round-trip of Director state: serialising any Director state with
saveState, constructing a fresh Director, loading the snapshot and calling
getState yields feuds, activeCharacters and waitingInTheWings lists equal
to the pre-serialisation values. -/
theorem director_state_roundtrip (d : DirectorState) :
    (getState (loadState freshDirector (saveState d))).feuds = d.feuds ∧
    (getState (loadState freshDirector (saveState d))).activeCharacters =
      d.activeCharacters ∧
    (getState (loadState freshDirector (saveState d))).waitingInTheWings =
      d.waitingInTheWings := by
  refine ⟨?_, ?_, ?_⟩ <;> simp [getState, loadState, saveState]

/-- C6: the surprise-entrance trigger is false on an empty wings list or
below 8 beats, otherwise fires exactly when the draw is below
min(0.35, (beats − 8) · 0.025); that probability is 0 at beat 8, strictly
increases through beat 22 and equals 0.35 from beat 22 on. -/
theorem surprise_trigger_spec :
    (∀ beats r, shouldTriggerSurprise [] beats r = false) ∧
    (∀ wings beats r, beats < 8 → shouldTriggerSurprise wings beats r = false) ∧
    (∀ wings beats r, wings ≠ [] → 8 ≤ beats →
      (shouldTriggerSurprise wings beats r = true ↔
        r < min (35/100) (((beats : ℚ) - 8) * (25/1000)))) ∧
    surpriseChance 8 = 0 ∧
    (∀ b b2 : ℕ, 8 ≤ b → b < b2 → b2 ≤ 22 → surpriseChance b < surpriseChance b2) ∧
    (∀ b : ℕ, 22 ≤ b → surpriseChance b = 35/100) := by
  refine ⟨?_, ?_, ?_, ?_, ?_, ?_⟩
  · intro beats r; rfl
  · intro wings beats r h
    unfold shouldTriggerSurprise
    rw [if_pos h]
    split <;> rfl
  · intro wings beats r hw hb
    cases wings with
    | nil => exact absurd rfl hw
    | cons a as =>
      unfold shouldTriggerSurprise
      rw [if_neg (by simp), if_neg (by omega)]
      simp [surpriseChance]
  · norm_num [surpriseChance]
  · intro b b2 h8 hlt h22
    have hb2 : (b2 : ℚ) ≤ 22 := by exact_mod_cast h22
    have hbb : (b : ℚ) < (b2 : ℚ) := by exact_mod_cast hlt
    have e1 : surpriseChance b = ((b : ℚ) - 8) * (25/1000) := by
      unfold surpriseChance
      exact min_eq_right (by nlinarith)
    have e2 : surpriseChance b2 = ((b2 : ℚ) - 8) * (25/1000) := by
      unfold surpriseChance
      exact min_eq_right (by nlinarith)
    rw [e1, e2]
    nlinarith
  · intro b hb
    have hb2 : (22 : ℚ) ≤ (b : ℚ) := by exact_mod_cast hb
    unfold surpriseChance
    exact min_eq_left (by nlinarith)

/-- Witness for C6 at concrete values: one firing trigger above beat 8 and
one strict probability increase inside the ramp. -/
theorem surprise_trigger_spec_witness :
    shouldTriggerSurprise ["undertaker"] 12 (1/100) = true ∧
    surpriseChance 10 < surpriseChance 11 := by
  obtain ⟨-, -, h3, -, h5, -⟩ := surprise_trigger_spec
  constructor
  · exact (h3 ["undertaker"] 12 (1/100) (by decide) (by norm_num)).mpr (by norm_num)
  · exact h5 10 11 (by norm_num) (by norm_num) (by norm_num)

/-- C3 counterexample: the singles match type requires 2 participants,
yet createMatch with a single known participant succeeds instead of
returning an error — the creation call performs no participant-count
validation. -/
theorem createMatch_count_counterexample :
    (lookupStr "singles" MATCH_TYPES).map MatchType.participantsMin = some 2 ∧
    (["john-cena"] : List String).length < 2 ∧
    isOkE (createMatch ["john-cena"] "singles" 5) = true := by
  refine ⟨rfl, by decide, rfl⟩

/-- C3 (amended): createMatch returns a structured error value, and it
does so in exactly two cases — an unknown match-type identifier or an
unknown participant identifier; being a total function it never throws,
and it performs no participant-count validation. -/
theorem createMatch_error_iff (participants : List String) (matchType : String)
    (totalRounds : ℕ) :
    isOkE (createMatch participants matchType totalRounds) = false ↔
      lookupStr matchType MATCH_TYPES = none ∨
        ∃ p ∈ participants, getCharacter p = none := by
  unfold createMatch
  cases hm : lookupStr matchType MATCH_TYPES with
  | none => simp [isOkE]
  | some mt =>
    cases hf : participants.find? (fun p => (getCharacter p).isNone) with
    | none =>
      rw [List.find?_eq_none] at hf
      simp only [isOkE]
      constructor
      · intro h; cases h
      · rintro (h | ⟨p, hp, hnone⟩)
        · cases h
        · have := hf p hp
          rw [hnone] at this
          cases this rfl
    | some p =>
      have hmem := List.mem_of_find?_eq_some hf
      have hpn := List.find?_some hf
      simp only [isOkE]
      constructor
      · intro _
        right
        exact ⟨p, hmem, by rwa [Option.isNone_iff_eq_none] at hpn⟩
      · intro _; trivial

/-- The claim-side formula for the decideResponders response probability:
feud base for a rival author else general base, +0.3 capped at 1 on a
mention, multiplied by a single damping factor that is 0.7 above heat 5
and 0.35 (the compounded 0.7 × 0.5) above heat 10. -/
def responseChanceSpec (char : Character) (isRival mentioned : Bool) (heat : ℕ) : ℚ :=
  let base := if isRival then char.feudResponseChance else char.responseChance
  let boosted := if mentioned then min 1 (base + 3/10) else base
  boosted * (if 10 < heat then 35/100 else if 5 < heat then 7/10 else 1)

/-- C5: for every registry character, the response probability computed by
the decideResponders loop equals the spec formula: base `p_feud` when the
author is a listed rival else `p_base`, plus 0.3 capped at 1.0 on a
case-insensitive token mention, damped by 0.7 above a trailing-30-minute
heat count of 5 and compounding to 0.35 above heat 10. -/
theorem decideResponders_chance (charId : String) (char : Character)
    (author : Option String) (message : String)
    (heatMap : List (String × List ℕ)) (now : ℕ)
    (hchar : getCharacter charId = some char) :
    charChance charId author message (getHeat heatMap now charId) =
      some (responseChanceSpec char (isRivalOf charId author)
        (nameMentioned char.name message) (getHeat heatMap now charId)) := by
  unfold charChance responseChanceSpec
  rw [hchar]
  simp only [Option.map_some', Option.some.injEq]
  split_ifs
  all_goals try ring
  all_goals exfalso; omega

/-- Witness for C5 at a concrete registry character, author and heat map:
a rival author, a mention in the message and an empty heat record. -/
theorem decideResponders_chance_witness :
    charChance "john-cena" (some "the-rock") "you cant see john cena"
        (getHeat [] 0 "john-cena") =
      some (responseChanceSpec
        { name := "John Cena", alignment := "face",
          responseChance := 7/10, feudResponseChance := 1 }
        (isRivalOf "john-cena" (some "the-rock"))
        (nameMentioned "John Cena" "you cant see john cena")
        (getHeat [] 0 "john-cena")) :=
  decideResponders_chance "john-cena" _ (some "the-rock") "you cant see john cena" [] 0 rfl

/-- Updating the key a lookup finds makes the lookup return the new value. -/
theorem lookupStr_updateStr {α : Type} (k : String) (v : α) :
    ∀ l : List (String × α), (lookupStr k l).isSome →
      lookupStr k (updateStr k v l) = some v := by
  intro l
  induction l with
  | nil => intro h; simp [lookupStr] at h
  | cons kv rest ih =>
    intro h
    obtain ⟨k2, v2⟩ := kv
    by_cases hk : k2 = k
    · simp [updateStr, lookupStr, hk]
    · simp only [updateStr, lookupStr, if_neg hk] at h ⊢
      exact ih h

/-- The bound of the award history: never more than 20 entries. -/
theorem awardTrunc_length (l : List Reign) : (awardTrunc l).length ≤ 20 := by
  unfold awardTrunc
  split
  · rw [List.length_drop]; omega
  · rename_i h; omega

/-- Truncating a pushed history drops exactly from the front. -/
theorem awardTrunc_append (l : List Reign) (x : Reign) :
    awardTrunc (l ++ [x]) = (l ++ [x]).drop ((l.length + 1) - 20) := by
  unfold awardTrunc
  split
  · rw [List.length_append, List.length_singleton]
  · rename_i h
    rw [List.length_append, List.length_singleton] at h
    rw [Nat.sub_eq_zero_of_le (by omega), List.drop_zero]

/-- Front truncation of a pushed history never loses the pushed entry. -/
theorem awardTrunc_append_getLast (l : List Reign) (x : Reign) :
    (awardTrunc (l ++ [x])).getLast? = some x := by
  rw [awardTrunc_append,
    List.drop_append_of_le_length (by omega : (l.length + 1) - 20 ≤ l.length)]
  exact List.getLast?_concat _

/-- C7: awardTitle is a null-returning no-op for an unknown title; for a
known title with a current holder, the closed reign (holder, won-at,
lost-at = now, defenses) is appended to the history — which stays bounded
at 20 entries by truncation from the front and still ends with the
appended reign — before the new holder is installed with defenses reset to
0 and won-at = now, and the change record reports the previous champion. -/
theorem awardTitle_spec (led : Ledger) (titleId characterId method : String) (now : ℕ) :
    (lookupStr titleId led = none →
      awardTitle led titleId characterId method now = (none, led)) ∧
    (∀ t prev, lookupStr titleId led = some t → t.holder = some prev →
      ∃ res led2 t2,
        awardTitle led titleId characterId method now = (some res, led2) ∧
        res.previousChampion = some prev ∧ res.newChampion = characterId ∧
        lookupStr titleId led2 = some t2 ∧
        t2.holder = some characterId ∧ t2.wonAt = some now ∧ t2.defenses = 0 ∧
        t2.history =
          (t.history ++ [({ holder := prev, wonAt := t.wonAt, lostAt := now,
                            defenses := t.defenses, vacated := false } : Reign)]).drop
            ((t.history.length + 1) - 20) ∧
        t2.history.length ≤ 20 ∧
        t2.history.getLast? =
          some { holder := prev, wonAt := t.wonAt, lostAt := now,
                 defenses := t.defenses, vacated := false }) := by
  constructor
  · intro h
    unfold awardTitle
    rw [h]
  · intro t prev ht hprev
    have hpush : awardPushed t now =
        t.history ++ [{ holder := prev, wonAt := t.wonAt, lostAt := now,
                        defenses := t.defenses, vacated := false }] := by
      unfold awardPushed
      rw [hprev]
    have heq : awardTitle led titleId characterId method now =
        (some { titleId := titleId, titleName := championshipDisplayName titleId,
                newChampion := characterId, previousChampion := t.holder,
                method := method },
         updateStr titleId
           ({ holder := some characterId, wonAt := some now, defenses := 0,
              history := awardTrunc (awardPushed t now) } : Title) led) := by
      unfold awardTitle
      rw [ht]
    refine ⟨_, _,
      ({ holder := some characterId, wonAt := some now, defenses := 0,
         history := awardTrunc (awardPushed t now) } : Title),
      heq, ?_, rfl, ?_, rfl, rfl, rfl, ?_, ?_, ?_⟩
    · exact hprev
    · exact lookupStr_updateStr titleId _ led (by rw [ht]; rfl)
    · show awardTrunc (awardPushed t now) = _
      rw [hpush, awardTrunc_append]
    · exact awardTrunc_length _
    · show (awardTrunc (awardPushed t now)).getLast? = _
      rw [hpush]
      exact awardTrunc_append_getLast _ _

/-- A concrete two-title ledger used by the championship witnesses. -/
def ledgerW : Ledger :=
  [ ("wwe-championship",
      { holder := some "john-cena", wonAt := some 50, defenses := 3, history := [] }),
    ("intercontinental",
      { holder := none, wonAt := none, defenses := 0, history := [] }) ]

/-- Witness for C7: the unknown-title no-op and a concrete award over a
held title, with the reported previous champion. -/
theorem awardTitle_spec_witness :
    awardTitle ledgerW "no-such-title" "the-rock" "pinfall" 99 = (none, ledgerW) ∧
    ∃ res led2 t2,
      awardTitle ledgerW "wwe-championship" "the-rock" "pinfall" 99 = (some res, led2) ∧
      res.previousChampion = some "john-cena" ∧ res.newChampion = "the-rock" ∧
      lookupStr "wwe-championship" led2 = some t2 ∧
      t2.holder = some "the-rock" ∧ t2.wonAt = some 99 ∧ t2.defenses = 0 := by
  constructor
  · exact (awardTitle_spec ledgerW "no-such-title" "the-rock" "pinfall" 99).1 rfl
  · obtain ⟨res, led2, t2, h1, h2, h3, h4, h5, h6, h7, -, -, -⟩ :=
      (awardTitle_spec ledgerW "wwe-championship" "the-rock" "pinfall" 99).2
        { holder := some "john-cena", wonAt := some 50, defenses := 3, history := [] }
        "john-cena" rfl rfl
    exact ⟨res, led2, t2, h1, h2, h3, h4, h5, h6, h7⟩

/-- C10: awarding a title to its current holder does not short-circuit —
the existing reign is still closed into history (an entry whose holder is
that same character), the defense count resets to 0, and the change record
has previousChampion equal to newChampion. -/
theorem awardTitle_self_award (led : Ledger) (titleId method : String) (now : ℕ)
    (t : Title) (c : String) (ht : lookupStr titleId led = some t)
    (hh : t.holder = some c) :
    ∃ res led2 t2,
      awardTitle led titleId c method now = (some res, led2) ∧
      res.newChampion = c ∧ res.previousChampion = some res.newChampion ∧
      lookupStr titleId led2 = some t2 ∧
      t2.holder = some c ∧ t2.defenses = 0 ∧
      t2.history.getLast? =
        some { holder := c, wonAt := t.wonAt, lostAt := now,
               defenses := t.defenses, vacated := false } := by
  have hpush : awardPushed t now =
      t.history ++ [{ holder := c, wonAt := t.wonAt, lostAt := now,
                      defenses := t.defenses, vacated := false }] := by
    unfold awardPushed
    rw [hh]
  have heq : awardTitle led titleId c method now =
      (some { titleId := titleId, titleName := championshipDisplayName titleId,
              newChampion := c, previousChampion := t.holder, method := method },
       updateStr titleId
         ({ holder := some c, wonAt := some now, defenses := 0,
            history := awardTrunc (awardPushed t now) } : Title) led) := by
    unfold awardTitle
    rw [ht]
  refine ⟨_, _,
    ({ holder := some c, wonAt := some now, defenses := 0,
       history := awardTrunc (awardPushed t now) } : Title),
    heq, rfl, ?_, ?_, rfl, rfl, ?_⟩
  · exact hh
  · exact lookupStr_updateStr titleId _ led (by rw [ht]; rfl)
  · show (awardTrunc (awardPushed t now)).getLast? = _
    rw [hpush]
    exact awardTrunc_append_getLast _ _

/-- Witness for C10: awarding the held WWE Championship to its own holder. -/
theorem awardTitle_self_award_witness :
    ∃ res led2 t2,
      awardTitle ledgerW "wwe-championship" "john-cena" "pinfall" 99 = (some res, led2) ∧
      res.newChampion = "john-cena" ∧ res.previousChampion = some res.newChampion ∧
      lookupStr "wwe-championship" led2 = some t2 ∧
      t2.holder = some "john-cena" ∧ t2.defenses = 0 ∧
      t2.history.getLast? =
        some { holder := "john-cena", wonAt := some 50, lostAt := 99,
               defenses := 3, vacated := false } :=
  awardTitle_self_award ledgerW "wwe-championship" "pinfall" 99
    { holder := some "john-cena", wonAt := some 50, defenses := 3, history := [] }
    "john-cena" rfl rfl

/-- The running-maximum loop keeps the first strict maximum: either nothing
in the remainder beats the current best, or the result sits in the
remainder, beats the current best, strictly beats everything before it and
is not beaten by anything after it. -/
theorem pickBestGo_spec (score : String → ℚ) :
    ∀ (rest : List String) (best : String),
      (pickBestGo score best (score best) rest = best ∧
        ∀ q ∈ rest, score q ≤ score best) ∨
      (∃ l1 l2, rest = l1 ++ pickBestGo score best (score best) rest :: l2 ∧
        score best < score (pickBestGo score best (score best) rest) ∧
        (∀ q ∈ l1, score q < score (pickBestGo score best (score best) rest)) ∧
        (∀ q ∈ l2, score q ≤ score (pickBestGo score best (score best) rest))) := by
  intro rest
  induction rest with
  | nil =>
    intro best
    left
    exact ⟨rfl, by simp⟩
  | cons p ps ih =>
    intro best
    by_cases h : score best < score p
    · have heq : pickBestGo score best (score best) (p :: ps) =
          pickBestGo score p (score p) ps := by
        simp [pickBestGo, h]
      rw [heq]
      rcases ih p with ⟨hres, hle⟩ | ⟨l1, l2, hsplit, hgt, hl1, hl2⟩
      · right
        rw [hres]
        refine ⟨[], ps, by rw [List.nil_append], h, ?_, hle⟩
        intro q hq
        cases hq
      · right
        refine ⟨p :: l1, l2, ?_, lt_trans h hgt, ?_, hl2⟩
        · rw [List.cons_append]
          exact congrArg (List.cons p) hsplit
        · intro q hq
          rcases List.mem_cons.mp hq with hq | hq
          · rw [hq]; exact hgt
          · exact hl1 q hq
    · have heq : pickBestGo score best (score best) (p :: ps) =
          pickBestGo score best (score best) ps := by
        simp [pickBestGo, h]
      rw [heq]
      rcases ih best with ⟨hres, hle⟩ | ⟨l1, l2, hsplit, hgt, hl1, hl2⟩
      · left
        refine ⟨hres, ?_⟩
        intro q hq
        rcases List.mem_cons.mp hq with hq | hq
        · rw [hq]; exact le_of_not_lt h
        · exact hle q hq
      · right
        refine ⟨p :: l1, l2, ?_, hgt, ?_, hl2⟩
        · rw [List.cons_append]
          exact congrArg (List.cons p) hsplit
        · intro q hq
          rcases List.mem_cons.mp hq with hq | hq
          · rw [hq]; exact lt_of_le_of_lt (le_of_not_lt h) hgt
          · exact hl1 q hq

/-- The argmax of a non-empty list: a member whose score is maximal, with
everything strictly before it scoring strictly less. -/
theorem pickBest_spec (score : String → ℚ) (l : List String) (hl : l ≠ []) :
    ∃ w, pickBest score l = some w ∧ w ∈ l ∧
      ∃ l1 l2, l = l1 ++ w :: l2 ∧ (∀ q ∈ l1, score q < score w) ∧
        ∀ q ∈ l2, score q ≤ score w := by
  cases l with
  | nil => exact absurd rfl hl
  | cons a rest =>
    have hdecomp : ∃ l1 l2,
        a :: rest = l1 ++ pickBestGo score a (score a) rest :: l2 ∧
        (∀ q ∈ l1, score q < score (pickBestGo score a (score a) rest)) ∧
        ∀ q ∈ l2, score q ≤ score (pickBestGo score a (score a) rest) := by
      rcases pickBestGo_spec score rest a with ⟨hres, hle⟩ | ⟨l1, l2, hsplit, hgt, hl1, hl2⟩
      · rw [hres]
        refine ⟨[], rest, by rw [List.nil_append], ?_, hle⟩
        intro q hq
        cases hq
      · refine ⟨a :: l1, l2, ?_, ?_, hl2⟩
        · rw [List.cons_append]
          exact congrArg (List.cons a) hsplit
        · intro q hq
          rcases List.mem_cons.mp hq with hq | hq
          · rw [hq]; exact hgt
          · exact hl1 q hq
    obtain ⟨l1, l2, hsplit, hl1, hl2⟩ := hdecomp
    refine ⟨pickBestGo score a (score a) rest, rfl, ?_, l1, l2, hsplit, hl1, hl2⟩
    rw [hsplit]
    exact List.mem_append_right l1 (List.mem_cons_self _ _)

/-- C4: when the forced finish fires, victory goes to the surviving
participant whose summed damage sitting on all other participants is
highest, ties resolved in favour of the earlier participant in list order
(everything before the winner scores strictly less, nothing after scores
more), and the win method is fixed to pinfall — which is the head win
condition of every catalog match type that lists a pin-style condition. -/
theorem forceFinish_spec (s : MatchState)
    (halive : aliveList s ≠ []) :
    ∃ w, (forceFinish s).winner = some w ∧ w ∈ aliveList s ∧
      (∃ l1 l2, aliveList s = l1 ++ w :: l2 ∧
        (∀ q ∈ l1, inflictedScore s q < inflictedScore s w) ∧
        ∀ q ∈ l2, inflictedScore s q ≤ inflictedScore s w) ∧
      (forceFinish s).winMethod = some "pinfall" ∧
      ∀ e ∈ MATCH_TYPES, "pinfall" ∈ e.2.winConditions →
        e.2.winConditions.head? = some "pinfall" := by
  obtain ⟨w, hpick, hmem, hdecomp⟩ := pickBest_spec (inflictedScore s) (aliveList s) halive
  exact ⟨w, hpick, hmem, hdecomp, rfl, by decide⟩

/-- Witness for C4: a concrete two-participant state where the second
participant carries more damage, so the first participant wins. -/
theorem forceFinish_spec_witness :
    ∃ w, (forceFinish
      { matchType := "singles", participants := ["john-cena", "the-rock"],
        totalRounds := 5, currentRound := 21,
        momentum := fun _ => 0,
        damage := fun p => if p = "the-rock" then 40 else 5,
        eliminated := [], winner := none, winMethod := none }).winner = some w ∧
      w ∈ aliveList
        { matchType := "singles", participants := ["john-cena", "the-rock"],
          totalRounds := 5, currentRound := 21,
          momentum := fun _ => 0,
          damage := fun p => if p = "the-rock" then 40 else 5,
          eliminated := [], winner := none, winMethod := none } := by
  obtain ⟨w, h1, h2, -, -, -⟩ := forceFinish_spec
    { matchType := "singles", participants := ["john-cena", "the-rock"],
      totalRounds := 5, currentRound := 21,
      momentum := fun _ => 0,
      damage := fun p => if p = "the-rock" then 40 else 5,
      eliminated := [], winner := none, winMethod := none }
    (by decide)
  exact ⟨w, h1, h2⟩

/-- k successive simulateRound calls with the given draw stream. -/
def stepN (mt : MatchType) (draws : ℕ → RoundDraw) (s : MatchState) : ℕ → MatchState
  | 0 => s
  | k + 1 => simulateRoundStep mt (stepN mt draws s k) (draws k)

/-- The per-participant clamping invariant: momentum in [-10,10] and
accumulated damage in [0,100]. -/
def ClampedInv (s : MatchState) : Prop :=
  ∀ p, -10 ≤ s.momentum p ∧ s.momentum p ≤ 10 ∧ 0 ≤ s.damage p ∧ s.damage p ≤ 100

/-- Pointwise bounds survive a single in-bounds map update. -/
theorem update_bounds {f : String → ℚ} {lo hi v : ℚ}
    (hf : ∀ p, lo ≤ f p ∧ f p ≤ hi) (k : String) (hv1 : lo ≤ v) (hv2 : v ≤ hi) :
    ∀ p, lo ≤ Function.update f k v p ∧ Function.update f k v p ≤ hi := by
  intro p
  rw [Function.update_apply]
  split
  · exact ⟨hv1, hv2⟩
  · exact hf p

/-- The common momentum updates keep every value inside [-10,10]. -/
theorem beatMomentum_bounds {mom : String → ℚ} (d : RoundDraw)
    (hm : ∀ p, -10 ≤ mom p ∧ mom p ≤ 10) (hs1 : 1 ≤ d.swing) :
    ∀ p, -10 ≤ beatMomentum mom d p ∧ beatMomentum mom d p ≤ 10 := by
  have h1 : ∀ p, -10 ≤ Function.update mom d.actor (min 10 (mom d.actor + d.swing)) p ∧
      Function.update mom d.actor (min 10 (mom d.actor + d.swing)) p ≤ 10 :=
    update_bounds hm d.actor
      (le_min (by norm_num) (by have := (hm d.actor).1; linarith))
      (min_le_left _ _)
  unfold beatMomentum
  exact update_bounds h1 d.target
    (le_max_left _ _)
    (max_le (by norm_num) (by have := (h1 d.target).2; linarith))

/-- The reversal momentum updates keep every value inside [-10,10]. -/
theorem revMomentum_bounds {mom : String → ℚ} (d : RoundDraw)
    (hm : ∀ p, -10 ≤ mom p ∧ mom p ≤ 10) (hs1 : 1 ≤ d.swing) (_hs3 : d.swing ≤ 3) :
    ∀ p, -10 ≤ revMomentum mom d p ∧ revMomentum mom d p ≤ 10 := by
  have h3 : ∀ p, -10 ≤ Function.update mom d.actor (max (-10) (mom d.actor - 2 * d.swing)) p ∧
      Function.update mom d.actor (max (-10) (mom d.actor - 2 * d.swing)) p ≤ 10 :=
    update_bounds hm d.actor
      (le_max_left _ _)
      (max_le (by norm_num) (by have := (hm d.actor).2; linarith))
  unfold revMomentum
  exact update_bounds h3 d.target
    (le_min (by norm_num) (by have := (h3 d.target).1; linarith))
    (min_le_left _ _)

/-- The common damage update keeps every value inside [0,100]. -/
theorem beatDamage_bounds {dmg : String → ℚ} (d : RoundDraw)
    (hd : ∀ p, 0 ≤ dmg p ∧ dmg p ≤ 100) (h0 : 0 ≤ d.dmg) :
    ∀ p, 0 ≤ beatDamage dmg d p ∧ beatDamage dmg d p ≤ 100 := by
  unfold beatDamage
  exact update_bounds hd d.target
    (le_min (by norm_num) (by have := (hd d.target).1; linarith))
    (min_le_left _ _)

/-- The reversal self-damage update keeps every value inside [0,100]. -/
theorem revDamage_bounds {dmg : String → ℚ} (d : RoundDraw)
    (hd : ∀ p, 0 ≤ dmg p ∧ dmg p ≤ 100) (h0 : 0 ≤ d.dmg) :
    ∀ p, 0 ≤ revDamage dmg d p ∧ revDamage dmg d p ≤ 100 := by
  unfold revDamage
  exact update_bounds hd d.actor
    (le_min (by norm_num) (by have := (hd d.actor).1; linarith))
    (min_le_left _ _)

/-- Beat resolution — reversal beats included — preserves the clamps. -/
theorem resolveBeat_inv (s : MatchState) (d : RoundDraw)
    (hs1 : 1 ≤ d.swing) (hs3 : d.swing ≤ 3) (h0 : 0 ≤ d.dmg) (h : ClampedInv s) :
    ClampedInv (resolveBeat s d) := by
  have hm : ∀ p, -10 ≤ s.momentum p ∧ s.momentum p ≤ 10 :=
    fun p => ⟨(h p).1, (h p).2.1⟩
  have hd : ∀ p, 0 ≤ s.damage p ∧ s.damage p ≤ 100 :=
    fun p => ⟨(h p).2.2.1, (h p).2.2.2⟩
  have hbm := beatMomentum_bounds d hm hs1
  have hbd := beatDamage_bounds d hd h0
  unfold resolveBeat
  split
  · intro p
    exact ⟨(revMomentum_bounds d hbm hs1 hs3 p).1, (revMomentum_bounds d hbm hs1 hs3 p).2,
      (revDamage_bounds d hbd h0 p).1, (revDamage_bounds d hbd h0 p).2⟩
  · intro p
    exact ⟨(hbm p).1, (hbm p).2, (hbd p).1, (hbd p).2⟩

/-- One simulateRound call preserves the clamps: a no-op on a finished
match, and otherwise beat resolution followed by a finish resolution that
only touches winner and win method. -/
theorem simulateRoundStep_inv (mt : MatchType) (s : MatchState) (d : RoundDraw)
    (hs1 : 1 ≤ d.swing) (hs3 : d.swing ≤ 3) (h0 : 0 ≤ d.dmg) (h : ClampedInv s) :
    ClampedInv (simulateRoundStep mt s d) := by
  have hstep : ClampedInv (resolveBeat { s with currentRound := s.currentRound + 1 } d) :=
    resolveBeat_inv _ d hs1 hs3 h0 (fun p => h p)
  unfold simulateRoundStep
  split
  · exact h
  · split
    · intro p
      exact hstep p
    · exact hstep

/-- C2: after every call to simulateRound on a live match — beat
resolution included, reversal beats included — every participant's
momentum lies in [-10,10] and every participant's damage lies in [0,100],
for any number of rounds of any created match and any random draws inside
the generator's ranges. -/
theorem momentum_damage_clamped (mt : MatchType) (participants : List String)
    (matchType : String) (totalRounds : ℕ) (draws : ℕ → RoundDraw) (s0 : MatchState)
    (hcreate : createMatch participants matchType totalRounds = Except.ok s0)
    (hd : ∀ n, DrawOk participants (draws n)) (k : ℕ) :
    ClampedInv (stepN mt draws s0 k) := by
  have h0 : ClampedInv s0 := by
    cases hm : lookupStr matchType MATCH_TYPES with
    | none => simp [createMatch, hm] at hcreate
    | some mtt =>
      cases hf : participants.find? (fun p => (getCharacter p).isNone) with
      | some p => simp [createMatch, hm, hf] at hcreate
      | none =>
        simp [createMatch, hm, hf] at hcreate
        rw [← hcreate]
        intro p
        refine ⟨by norm_num, by norm_num, by norm_num, by norm_num⟩
  induction k with
  | zero => exact h0
  | succ k ih =>
    exact simulateRoundStep_inv mt _ (draws k)
      (hd k).2.2.1 (hd k).2.2.2.1 (hd k).2.2.2.2.1 ih

/-- The singles entry of the catalog, used by the concrete witnesses. -/
def mtSingles : MatchType :=
  { name := "Singles Match", participantsMin := 2,
    winConditions := ["pinfall", "submission", "count-out", "dq"],
    roundsMin := 4, roundsMax := 7 }

/-- A concrete draw stream that always plays a reversal beat. -/
def drawsW : ℕ → RoundDraw := fun _ =>
  { actor := "john-cena", target := "the-rock", beat := "counter",
    swing := 2, dmg := 12, jitterA := 1, jitterT := 1, methodIdx := 0 }

/-- The live match created for the concrete witnesses. -/
def s0W : MatchState :=
  { matchType := "singles", participants := ["john-cena", "the-rock"],
    totalRounds := 5, currentRound := 0,
    momentum := fun _ => 0, damage := fun _ => 0,
    eliminated := [], winner := none, winMethod := none }

/-- Witness for C2: three rounds of reversal beats on a concrete match. -/
theorem momentum_damage_clamped_witness : ClampedInv (stepN mtSingles drawsW s0W 3) :=
  momentum_damage_clamped mtSingles ["john-cena", "the-rock"] "singles" 5 drawsW s0W
    rfl
    (fun _ => (by decide : DrawOk ["john-cena", "the-rock"]
      { actor := "john-cena", target := "the-rock", beat := "counter",
        swing := 2, dmg := 12, jitterA := 1, jitterT := 1, methodIdx := 0 }))
    3

/-- Beat resolution only touches the momentum and damage maps. -/
theorem resolveBeat_participants (s : MatchState) (d : RoundDraw) :
    (resolveBeat s d).participants = s.participants := by
  unfold resolveBeat; split <;> rfl

/-- Beat resolution leaves the eliminated list unchanged. -/
theorem resolveBeat_eliminated (s : MatchState) (d : RoundDraw) :
    (resolveBeat s d).eliminated = s.eliminated := by
  unfold resolveBeat; split <;> rfl

/-- Beat resolution leaves the round counter unchanged. -/
theorem resolveBeat_currentRound (s : MatchState) (d : RoundDraw) :
    (resolveBeat s d).currentRound = s.currentRound := by
  unfold resolveBeat; split <;> rfl

/-- Beat resolution leaves the winner unchanged. -/
theorem resolveBeat_winner (s : MatchState) (d : RoundDraw) :
    (resolveBeat s d).winner = s.winner := by
  unfold resolveBeat; split <;> rfl

/-- One live simulateRound call preserves the participant list and the
eliminated list, advances the round counter by one, and can only set the
winner to the drawn actor or target. -/
theorem simulateRoundStep_facts (mt : MatchType) (s : MatchState) (d : RoundDraw)
    (h : s.winner = none) :
    (simulateRoundStep mt s d).participants = s.participants ∧
    (simulateRoundStep mt s d).eliminated = s.eliminated ∧
    (simulateRoundStep mt s d).currentRound = s.currentRound + 1 ∧
    ((simulateRoundStep mt s d).winner = none ∨
      (simulateRoundStep mt s d).winner = some d.actor ∨
      (simulateRoundStep mt s d).winner = some d.target) := by
  unfold simulateRoundStep
  rw [if_neg (by simp [h])]
  split
  · refine ⟨?_, ?_, ?_, ?_⟩
    · show (resolveBeat _ d).participants = _
      rw [resolveBeat_participants]
    · show (resolveBeat _ d).eliminated = _
      rw [resolveBeat_eliminated]
    · show (resolveBeat _ d).currentRound = _
      rw [resolveBeat_currentRound]
    · right
      show some _ = some d.actor ∨ some _ = some d.target
      split
      · left; rfl
      · right; rfl
  · refine ⟨resolveBeat_participants _ d, resolveBeat_eliminated _ d, ?_, ?_⟩
    · rw [resolveBeat_currentRound]
    · left
      rw [resolveBeat_winner]
      exact h

/-- With nobody eliminated, the surviving list is the participant list. -/
theorem aliveList_no_elims (s : MatchState) (h : s.eliminated = []) :
    aliveList s = s.participants := by
  unfold aliveList
  rw [h]
  simp

/-- The round loop is a no-op once a winner exists. -/
theorem runRounds_of_winner (mt : MatchType) (draws : ℕ → RoundDraw) (fuel : ℕ)
    (s : MatchState) (n : ℕ) (h : s.winner.isSome) :
    runRounds mt draws fuel s n = (s, n) := by
  cases fuel with
  | zero => rfl
  | succ f =>
    unfold runRounds
    rw [if_pos h]

/-- The round loop of simulateFullMatch always reaches a winner from the
participant set within 21 simulated rounds: either a natural finish sets
the winner to one of the drawn combatants, or the safety valve forces a
finish for a surviving participant after round 21. -/
theorem runRounds_winner_exists (mt : MatchType) (draws : ℕ → RoundDraw)
    (ps : List String) (hd : ∀ n, DrawOk ps (draws n)) :
    ∀ fuel n s, s.participants = ps → s.eliminated = [] →
      s.winner = none → n ≤ 20 → 21 ≤ fuel + n →
      ∃ s2 n2, runRounds mt draws fuel s n = (s2, n2) ∧ n < n2 ∧ n2 ≤ 21 ∧
        ∃ w, s2.winner = some w ∧ w ∈ ps := by
  intro fuel
  induction fuel with
  | zero =>
    intro n s _ _ _ h20 h21
    omega
  | succ fuel ih =>
    intro n s hps helim hw h20 h21
    have hnotsome : ¬ s.winner.isSome = true := by simp [hw]
    obtain ⟨f1, f2, f3, f5⟩ := simulateRoundStep_facts mt s (draws n) hw
    by_cases hceil : 20 < n + 1
    · refine ⟨forceFinish (simulateRoundStep mt s (draws n)), n + 1, ?_, by omega, by omega, ?_⟩
      · unfold runRounds
        rw [if_neg hnotsome, if_pos hceil]
      · have helim2 : (simulateRoundStep mt s (draws n)).eliminated = [] := by
          rw [f2, helim]
        have halive : aliveList (simulateRoundStep mt s (draws n)) = ps := by
          rw [aliveList_no_elims _ helim2, f1, hps]
        have hps_ne : ps ≠ [] := by
          intro hnil
          have hmem := (hd 0).1
          rw [hnil] at hmem
          exact absurd hmem (List.not_mem_nil _)
        obtain ⟨w, hpick, hmem, -⟩ :=
          pickBest_spec (inflictedScore (simulateRoundStep mt s (draws n)))
            (aliveList (simulateRoundStep mt s (draws n))) (by rw [halive]; exact hps_ne)
        refine ⟨w, ?_, ?_⟩
        · show pickBest _ _ = some w
          exact hpick
        · rw [halive] at hmem
          exact hmem
    · have hstep : runRounds mt draws (fuel + 1) s n =
          runRounds mt draws fuel (simulateRoundStep mt s (draws n)) (n + 1) := by
        conv_lhs => rw [runRounds]
        rw [if_neg hnotsome, if_neg hceil]
      rw [hstep]
      rcases f5 with hwn | hwa | hwt
      · obtain ⟨s2, n2, hr, hlt2, hle2, w, hw2, hmem2⟩ :=
          ih (n + 1) (simulateRoundStep mt s (draws n))
            (by rw [f1, hps]) (by rw [f2, helim]) hwn (by omega) (by omega)
        exact ⟨s2, n2, hr, by omega, hle2, w, hw2, hmem2⟩
      · rw [runRounds_of_winner mt draws fuel _ (n + 1) (by simp [hwa])]
        exact ⟨_, n + 1, rfl, by omega, by omega, (draws n).actor, hwa, (hd n).1⟩
      · rw [runRounds_of_winner mt draws fuel _ (n + 1) (by simp [hwt])]
        exact ⟨_, n + 1, rfl, by omega, by omega, (draws n).target, hwt, (hd n).2.1⟩

/-- C1: for every participant list of at least two registry-known
identifiers and every catalog match type, simulateFullMatch terminates
after at most 21 simulated rounds (20 plus the guaranteed forced-finish
round) and the returned match has a non-null winner drawn from the
supplied participants, for every draw stream inside the generator's
ranges and every total-round draw inside the type's configured range. -/
theorem simulateFullMatch_terminates (participants : List String) (matchType : String)
    (mt : MatchType) (totalRounds : ℕ) (draws : ℕ → RoundDraw)
    (hmt : lookupStr matchType MATCH_TYPES = some mt)
    (_hlen : 2 ≤ participants.length)
    (hreg : ∀ p ∈ participants, (getCharacter p).isSome)
    (_htr1 : mt.roundsMin ≤ totalRounds) (_htr2 : totalRounds ≤ mt.roundsMax)
    (hd : ∀ n, DrawOk participants (draws n)) :
    ∃ s2 rounds,
      simulateFullMatch participants matchType totalRounds draws = Except.ok (s2, rounds) ∧
      rounds ≤ 21 ∧ ∃ w, s2.winner = some w ∧ w ∈ participants := by
  have hfind : participants.find? (fun p => (getCharacter p).isNone) = none := by
    rw [List.find?_eq_none]
    intro x hx
    have hsome := hreg x hx
    cases hgc : getCharacter x with
    | none => rw [hgc] at hsome; simp at hsome
    | some c => simp [hgc]
  have hcm : createMatch participants matchType totalRounds = Except.ok
      { matchType := matchType, participants := participants,
        totalRounds := totalRounds, currentRound := 0,
        momentum := fun _ => 0, damage := fun _ => 0,
        eliminated := [], winner := none, winMethod := none } := by
    unfold createMatch
    rw [hmt, hfind]
  obtain ⟨s2, n2, hrun, hlt, hle, w, hw, hwmem⟩ :=
    runRounds_winner_exists mt draws participants hd 21 0
      { matchType := matchType, participants := participants,
        totalRounds := totalRounds, currentRound := 0,
        momentum := fun _ => 0, damage := fun _ => 0,
        eliminated := [], winner := none, winMethod := none }
      rfl rfl rfl (by omega) (by omega)
  refine ⟨s2, n2, ?_, hle, w, hw, hwmem⟩
  have hfull : simulateFullMatch participants matchType totalRounds draws =
      Except.ok (runRounds mt draws 21
        { matchType := matchType, participants := participants,
          totalRounds := totalRounds, currentRound := 0,
          momentum := fun _ => 0, damage := fun _ => 0,
          eliminated := [], winner := none, winMethod := none } 0) := by
    unfold simulateFullMatch
    rw [hmt, hcm]
  rw [hfull, hrun]

/-- Witness for C1: a concrete singles match between the two registry
characters with a constant draw stream. -/
theorem simulateFullMatch_terminates_witness :
    ∃ s2 rounds,
      simulateFullMatch ["john-cena", "the-rock"] "singles" 5 drawsW =
        Except.ok (s2, rounds) ∧
      rounds ≤ 21 ∧ ∃ w, s2.winner = some w ∧ w ∈ ["john-cena", "the-rock"] :=
  simulateFullMatch_terminates ["john-cena", "the-rock"] "singles" mtSingles 5 drawsW
    rfl (by decide) (by decide) (by decide) (by decide)
    (fun _ => (by decide : DrawOk ["john-cena", "the-rock"]
      { actor := "john-cena", target := "the-rock", beat := "counter",
        swing := 2, dmg := 12, jitterA := 1, jitterT := 1, methodIdx := 0 }))

/-- C8: with exactly one feud of intensity 9 between two registry
characters and two other unbooked active registry characters, and no held
titles, autoBookCard produces exactly two entries — the feud pair as a
hell-in-a-cell main event at order 1 and the two leftovers as a plain
singles match at order 2 — and no character appears in more than one
entry. The registry is the spec-modelled membership predicate `reg` (see
`registryNote`). -/
theorem autoBookCard_feud_scenario (reg : String → Bool) (r1 r2 a1 a2 : String)
    (champState : List (String × Option String)) (ph : String) (st : ℕ)
    (hr1 : reg r1 = true) (hr2 : reg r2 = true)
    (ha1 : reg a1 = true) (ha2 : reg a2 = true)
    (h12 : r1 ≠ r2) (_ha12 : a1 ≠ a2)
    (ha1r1 : a1 ≠ r1) (ha1r2 : a1 ≠ r2) (ha2r1 : a2 ≠ r1) (ha2r2 : a2 ≠ r2)
    (hvac : ∀ kv ∈ champState, kv.2 = (none : Option String)) :
    autoBookCard reg [{ between := [r1, r2], intensity := 9, phase := ph, startedAt := st }]
        [r1, r2, a1, a2] champState =
      [ { order := 1, participants := [r1, r2], matchType := "hell-in-a-cell",
          forTitle := none, isMainEvent := true },
        { order := 2, participants := [a1, a2], matchType := "singles",
          forTitle := none, isMainEvent := false } ] ∧
    List.Pairwise (fun e1 e2 => ∀ c ∈ e1.participants, c ∉ e2.participants)
      (autoBookCard reg
        [{ between := [r1, r2], intensity := 9, phase := ph, startedAt := st }]
        [r1, r2, a1, a2] champState) := by
  have hfind : findTitleFor champState r1 r2 = none := by
    unfold findTitleFor
    have hnone : champState.find? (fun kv => kv.2 == some r1 || kv.2 == some r2) = none := by
      rw [List.find?_eq_none]
      intro kv hkv
      rw [hvac kv hkv]
      simp
    rw [hnone]
    rfl
  have hbmt : bookedMatchType 9 = "hell-in-a-cell" := by
    unfold bookedMatchType
    norm_num
  have hcard : autoBookCard reg
      [{ between := [r1, r2], intensity := 9, phase := ph, startedAt := st }]
      [r1, r2, a1, a2] champState =
      [ { order := 1, participants := [r1, r2], matchType := "hell-in-a-cell",
          forTitle := none, isMainEvent := true },
        { order := 2, participants := [a1, a2], matchType := "singles",
          forTitle := none, isMainEvent := false } ] := by
    unfold autoBookCard sortFeudsDesc insertFeudDesc
    simp [feudLoop, fillLoop, hfind, hbmt, hr1, hr2, ha1, ha2,
      h12, ha1r1, ha1r2, ha2r1, ha2r2,
      Ne.symm h12, Ne.symm ha1r1, Ne.symm ha1r2, Ne.symm ha2r1, Ne.symm ha2r2,
      decide_eq_false ha1r1, decide_eq_false ha1r2,
      decide_eq_false ha2r1, decide_eq_false ha2r2]
  refine ⟨hcard, ?_⟩
  rw [hcard]
  refine List.Pairwise.cons ?_ (List.pairwise_singleton _ _)
  intro e2 he2 c hc
  rw [List.mem_singleton] at he2
  subst he2
  simp only [List.mem_cons, List.mem_singleton, List.not_mem_nil, or_false] at hc
  simp only [List.mem_cons, List.mem_singleton, List.not_mem_nil, or_false]
  rcases hc with hc | hc <;> rintro (h | h)
  · exact ha1r1 (h.symm.trans hc)
  · exact ha2r1 (h.symm.trans hc)
  · exact ha1r2 (h.symm.trans hc)
  · exact ha2r2 (h.symm.trans hc)

/-- Witness for C8: the cena–rock feud at intensity 9 with undertaker and
mankind waiting as the two unbooked actives, over the vacant initial
championship state. -/
theorem autoBookCard_feud_scenario_witness :
    autoBookCard (fun c => c ∈ ["john-cena", "the-rock", "undertaker", "mankind"])
        [{ between := ["john-cena", "the-rock"], intensity := 9,
           phase := "building", startedAt := 0 }]
        ["john-cena", "the-rock", "undertaker", "mankind"]
        [("wwe-championship", none), ("intercontinental", none),
         ("tag-team", none), ("hardcore", none)] =
      [ { order := 1, participants := ["john-cena", "the-rock"],
          matchType := "hell-in-a-cell", forTitle := none, isMainEvent := true },
        { order := 2, participants := ["undertaker", "mankind"],
          matchType := "singles", forTitle := none, isMainEvent := false } ] :=
  (autoBookCard_feud_scenario
    (fun c => c ∈ ["john-cena", "the-rock", "undertaker", "mankind"])
    "john-cena" "the-rock" "undertaker" "mankind"
    [("wwe-championship", none), ("intercontinental", none),
     ("tag-team", none), ("hardcore", none)] "building" 0
    (by decide) (by decide) (by decide) (by decide)
    (by decide) (by decide) (by decide) (by decide) (by decide) (by decide)
    (by decide)).1
